import Mathlib

/-
Shallow embedding of tlo-vote-tally.py, a scraper for Texas Legislature
Online vote records, together with proofs about its behaviour.

The network is modelled as an oracle passed to each function: for a given
URL it maps the index of the requests.get call (0 for the first attempt,
1 for the retry) and the verify flag to either a raised requests exception
or a response whose body is already in parsed document form (the embedding
does not model raw HTML text; the parse and make_links_absolute steps of
lxmlize are the identity on this form).
-/

set_option autoImplicit false

namespace TloVoteTally

/-- Exceptions raised by requests.get: certificate validation failure,
connection failure, or any other request exception. -/
inductive ReqError where
  | sslError
  | connectionError
  | otherError
deriving DecidableEq

/-- Python exceptions the script can raise, as a shallow error type. -/
inductive PyError where
  | keyError (k : String)
  | attributeError (a : String)
  | indexError
  | requestsError (e : ReqError)
  | httpError
deriving DecidableEq

/-- An HTTP response: ok is whether the status code is non-error (what
raise_for_status checks), text is the body in parsed form. -/
structure Response (α : Type) where
  ok : Bool
  text : α
deriving DecidableEq

/-- Result of one lxmlize call: the returned page or the raised exception,
the durations passed to sleep, and the number of requests.get calls made. -/
structure FetchResult (α : Type) where
  result : Except PyError α
  sleeps : List Nat
  requests : Nat

/-- Embedding of lxmlize (source lines 8-31). A first requests.get is
issued; on SSLError a second one with verify=False is issued at once; on
ConnectionError the script sleeps 10 seconds and issues a second one; any
exception raised by the second call, or any other exception raised by the
first, propagates. If raise_exceptions is set, an error status raises
HTTPError; otherwise the body is returned as parsed regardless of status.
The source defaults raise_exceptions to False; call sites below pass false
accordingly. -/
def lxmlize {α : Type} (get : Nat → Bool → Except ReqError (Response α))
    (raise_exceptions : Bool) : FetchResult α :=
  match get 0 true with
  | .ok r =>
    if raise_exceptions && !r.ok then ⟨.error .httpError, [], 1⟩
    else ⟨.ok r.text, [], 1⟩
  | .error .sslError =>
    match get 1 false with
    | .ok r =>
      if raise_exceptions && !r.ok then ⟨.error .httpError, [], 2⟩
      else ⟨.ok r.text, [], 2⟩
    | .error e => ⟨.error (.requestsError e), [], 2⟩
  | .error .connectionError =>
    match get 1 true with
    | .ok r =>
      if raise_exceptions && !r.ok then ⟨.error .httpError, [10], 2⟩
      else ⟨.ok r.text, [10], 2⟩
    | .error e => ⟨.error (.requestsError e), [10], 2⟩
  | .error .otherError => ⟨.error (.requestsError .otherError), [], 1⟩

/-- Whether the remainder of the input may follow the digits matched by
the regex fragment d+ dollar: Python's dollar anchor matches at the end of
the string or just before a single trailing newline. -/
def shbTail (t : List Char) : Bool :=
  if t = [] ∨ t = [Char.ofNat 10] then true else false

/-- Matching of the regex fragment [SH]B d+ dollar at the current
position: an S or H, a B, then one or more digits running to the end of
the string (or to a single trailing newline). Returns the matched text,
which is what re's group() yields. -/
def shbMatchAt : List Char → Option (List Char)
  | c :: 'B' :: rest =>
    if (c = 'S' ∨ c = 'H') ∧ rest.takeWhile Char.isDigit ≠ [] ∧
        shbTail (rest.dropWhile Char.isDigit) then
      some (c :: 'B' :: rest.takeWhile Char.isDigit)
    else none
  | _ => none

/-- re.search of the pattern [SH]B d+ dollar (source line 63): the
leftmost position where the pattern matches wins. -/
def shbSearch : List Char → Option (List Char)
  | [] => none
  | c :: cs =>
    match shbMatchAt (c :: cs) with
    | some m => some m
    | none => shbSearch cs

def shbSearchStr (s : String) : Option String :=
  (shbSearch s.data).map fun l => ⟨l⟩

/-- re.match of the pattern .*=[SH]B d+ dollar used to filter listing-page
links (source line 48): scan for a literal = sign (the dot of .* matches
any character except a newline, so the scan cannot cross one) followed by
a terminal bill identifier. -/
def listingMatch : List Char → Bool
  | [] => false
  | c :: cs =>
    if c = '=' ∧ (shbMatchAt cs).isSome then true
    else if c = Char.ofNat 10 then false
    else listingMatch cs

def reMatchBillLink (s : String) : Bool := listingMatch s.data

/-- The retention predicate exactly as claim C3 words it: the trailing
segment of the URL matches [SH]B followed by one or more digits anchored
at end of string, i.e. re.search of [SH]B d+ dollar succeeds. Stated from
the claim's words, for comparison with the source filter reMatchBillLink. -/
def specTrailingSegmentMatches (s : String) : Bool := (shbSearchStr s).isSome

/-- One table row with id houvote or senvote, as exposed to the three
xpath queries the script runs against it: the href attributes of anchors
in the second cell, the text of those anchors, and the text nodes of the
fourth cell. -/
structure RawVoteRow where
  anchorHrefs : List String
  anchorTexts : List String
  dateTexts : List String
deriving DecidableEq

/-- A parsed document as exposed to the xpath queries the script makes:
every hyperlink target on the page (already made absolute), and the table
rows with id houvote respectively senvote. -/
structure Doc where
  hrefs : List String
  houvote : List RawVoteRow
  senvote : List RawVoteRow
deriving DecidableEq

/-- The network environment: URL, index of the requests.get call, verify
flag. -/
abbrev Net : Type := String → Nat → Bool → Except ReqError (Response Doc)

/-- The dict literal chamber_map of source lines 38-41; subscripting with
any other key raises KeyError. -/
def chamber_map (chamber : String) : Option String :=
  if chamber = "senate" then some "senatefiled"
  else if chamber = "house" then some "housefiled"
  else none

/-- The listing URL built by the f-string on source line 42. -/
def mkListingUrl (session cid : String) : String :=
  "https://capitol.texas.gov/Reports/Report.aspx?LegSess=" ++ session ++
    "&ID=" ++ cid

/-- Embedding of get_chamber_bills (source lines 33-51). The subscript
chamber_map[chamber] raises KeyError before any request is made;
otherwise the listing page is fetched through lxmlize (with the default
raise_exceptions, i.e. false) and the page's hrefs are filtered by
re.match of .*=[SH]B d+ dollar, in page order, appending each hit. The
second component records the URLs requested over the network, one entry
per requests.get call. -/
def get_chamber_bills (env : Net) (chamber session : String) :
    Except PyError (List String) × List String :=
  match chamber_map chamber with
  | none => (.error (.keyError chamber), [])
  | some cid =>
    let url := mkListingUrl session cid
    let f := lxmlize (env url) false
    match f.result with
    | .error e => (.error e, List.replicate f.requests url)
    | .ok doc => (.ok (doc.hrefs.filter reMatchBillLink), List.replicate f.requests url)

/-- Python str.strip(): remove leading and trailing whitespace. -/
def pyStrip (s : String) : String :=
  ⟨((s.data.dropWhile Char.isWhitespace).reverse.dropWhile Char.isWhitespace).reverse⟩

/-- One recorded vote event, the dict built on source lines 74 and 79. -/
structure VoteRecord where
  date : String
  source : String
  type : String
deriving DecidableEq

/-- The per-bill value dict of source lines 80-85. -/
structure BillVoteSummary where
  lower_votes : Nat
  upper_votes : Nat
  lower : List VoteRecord
  upper : List VoteRecord
deriving DecidableEq

/-- Extraction of one vote row (source lines 71-74 and 76-79): the
subscript [0] on each xpath result raises IndexError when that result is
empty; the journal link is read first, then the anchor text, then the
date, which is stripped. -/
def extractRecord (r : RawVoteRow) : Except PyError VoteRecord :=
  match r.anchorHrefs with
  | [] => .error .indexError
  | journal_link :: _ =>
    match r.anchorTexts with
    | [] => .error .indexError
    | ty :: _ =>
      match r.dateTexts with
      | [] => .error .indexError
      | d :: _ => .ok ⟨pyStrip d, journal_link, ty⟩

/-- The for-loops of source lines 70-79: one extracted record per row, in
row order, stopping at the first raised exception. -/
def extractRecords : List RawVoteRow → Except PyError (List VoteRecord)
  | [] => .ok []
  | r :: rest =>
    match extractRecord r with
    | .error e => .error e
    | .ok v =>
      match extractRecords rest with
      | .error e => .error e
      | .ok vs => .ok (v :: vs)

/-- Processing of one URL by the loop body of scrape_chamber (source
lines 61-87): the bill id is extracted first (group() on the None that a
failed re.search returns raises AttributeError, before any fetch), then
the page is fetched through lxmlize with the default raise_exceptions,
then the houvote rows and the senvote rows are extracted, and the summary
is keyed by the bill id with the counts taken from the row lists. The Nat
is the number of requests.get calls this URL caused. -/
def scrapeStep (env : Net) (url : String) :
    Except PyError (String × BillVoteSummary) × Nat :=
  match shbSearchStr url with
  | none => (.error (.attributeError "group"), 0)
  | some bill =>
    let f := lxmlize (env url) false
    match f.result with
    | .error e => (.error e, f.requests)
    | .ok page =>
      match extractRecords page.houvote with
      | .error e => (.error e, f.requests)
      | .ok h_data =>
        match extractRecords page.senvote with
        | .error e => (.error e, f.requests)
        | .ok s_data =>
          (.ok (bill, ⟨page.houvote.length, page.senvote.length, h_data, s_data⟩),
            f.requests)

/-- What draining the generator scrape_chamber observes: the yielded
elements in order, the exception that terminated it early (if any), and
the URLs requested over the network, one entry per requests.get call. -/
structure ScrapeResult where
  yields : List (String × BillVoteSummary)
  error : Option PyError
  requests : List String
deriving DecidableEq

/-- Embedding of the generator scrape_chamber (source lines 53-88),
fully drained. The chamber parameter is only used in a print in the
source. The dead accumulator bill_votes has no observable effect and is
not modelled. -/
def scrape_chamber (env : Net) (chamber : String) : List String → ScrapeResult
  | [] => ⟨[], none, []⟩
  | url :: rest =>
    match scrapeStep env url with
    | (.error e, n) => ⟨[], some e, List.replicate n url⟩
    | (.ok pr, n) =>
      let r := scrape_chamber env chamber rest
      ⟨pr :: r.yields, r.error, List.replicate n url ++ r.requests⟩

/-- The rows written by the full-mode loop of write_data (source lines
96-106), in order: for each bill, its house records then its senate
records. -/
def fullRows : List (String × BillVoteSummary) → List (List String)
  | [] => []
  | (k, v) :: rest =>
    (v.lower.map fun r => [k, "house", r.date, r.source]) ++
      ((v.upper.map fun r => [k, "senate", r.date, r.source]) ++ fullRows rest)

/-- The rows written by the summary-mode loop of write_data (source lines
110-113), in order: one row per bill. -/
def summaryRows : List (String × BillVoteSummary) → List (List String)
  | [] => []
  | (k, v) :: rest =>
    [k, toString v.lower_votes, toString v.upper_votes] :: summaryRows rest

/-- The data rows (header excluded) one write_data invocation produces. -/
def dataRows (data : List (String × BillVoteSummary)) (full : Bool) :
    List (List String) :=
  if full then fullRows data else summaryRows data

/-- Embedding of write_data (source lines 90-114). The file is opened
with mode a, so the rows of this invocation (its header first) land after
whatever the file already holds; prior is the file's existing rows and
the result is the file's rows afterwards. -/
def write_data (prior : List (List String))
    (data : List (String × BillVoteSummary)) (full : Bool) :
    List (List String) :=
  if full then prior ++ ["bill_id", "chamber", "date", "journal"] :: fullRows data
  else prior ++ ["bill_id", "lower_votes", "upper_votes"] :: summaryRows data

/-- A Python value as it can flow out of attribute lookups in main. -/
inductive PyValue where
  | str (s : String)
  | bool (b : Bool)
  | pyNone
deriving DecidableEq

/-- Python str() of a PyValue, as f-string interpolation would render it. -/
def PyValue.asStr : PyValue → String
  | .str s => s
  | .bool b => if b then "True" else "False"
  | .pyNone => "None"

/-- Python truthiness of a PyValue. -/
def PyValue.asBool : PyValue → Bool
  | .str s => if s = "" then false else true
  | .bool b => b
  | .pyNone => false

/-- The argparse.ArgumentParser object after the add_argument calls of
source lines 119-126: it records the registered option strings. -/
structure ArgumentParser where
  options : List String

/-- Attribute access on an argparse.ArgumentParser object. The values
parsed from the command line are attributes of the Namespace object that
parse_args returns, never of the parser itself, so looking a destination
name such as chamber up on the parser raises AttributeError. Genuine
parser attributes such as prog exist but are not destinations. -/
def ArgumentParser.getattr (p : ArgumentParser) (a : String) :
    Except PyError PyValue :=
  if a = "prog" ∨ a = "usage" ∨ a = "description" then .ok (.str "")
  else .error (.attributeError a)

/-- Embedding of main (source lines 116-130): builds the parser,
registers the four options, and then reads parser.chamber,
parser.session, parser.chamber again, parser.file and parser.output
directly off the parser object, in the evaluation order of lines
127-128 — parse_args is never called in the source, so argv is never
consulted. The file's prior rows stand in for the file argument, and a
mid-generator exception is surfaced as the run's error. -/
def main (argv : List String) (env : Net) (prior : List (List String)) :
    Except PyError (List (List String)) :=
  let parser : ArgumentParser :=
    ⟨["-c", "--chamber", "-f", "--file", "-o", "--output", "-s", "--session"]⟩
  match parser.getattr "chamber" with
  | .error e => .error e
  | .ok chamberV =>
    match parser.getattr "session" with
    | .error e => .error e
    | .ok sessionV =>
      match (get_chamber_bills env chamberV.asStr sessionV.asStr).1 with
      | .error e => .error e
      | .ok bill_urls =>
        match parser.getattr "chamber" with
        | .error e => .error e
        | .ok chamberV2 =>
          match parser.getattr "file" with
          | .error e => .error e
          | .ok _fileV =>
            match parser.getattr "output" with
            | .error e => .error e
            | .ok outputV =>
              let r := scrape_chamber env chamberV2.asStr bill_urls
              match r.error with
              | some e => .error e
              | none => .ok (write_data prior r.yields outputV.asBool)

/-- Whether an Except is a success. -/
def exOk {ε α : Type} : Except ε α → Bool
  | .ok _ => true
  | .error _ => false

/-!  Concrete instances used to witness the theorems below. -/

/-- A listing page carrying two qualifying bill links, a resolution link,
and a bill-shaped link whose identifier is not preceded by an = sign. -/
def docListing : Doc :=
  ⟨["https://capitol.texas.gov/BillLookup/History.aspx?LegSess=85R&Bill=HB15",
    "https://capitol.texas.gov/BillLookup/History.aspx?LegSess=85R&Bill=HCR12",
    "https://capitol.texas.gov/BillLookup/History.aspx?LegSess=85R&Bill=SB4",
    "https://capitol.texas.gov/BillLookup/HB15"], [], []⟩

/-- A network returning the listing page with a success status. -/
def envListing : Net := fun _ _ _ => .ok ⟨true, docListing⟩

/-- A network returning the listing page with an error status. -/
def envNotOk : Net := fun _ _ _ => .ok ⟨false, docListing⟩

/-- A bill detail page with one house vote row and no senate vote rows. -/
def rowW : RawVoteRow :=
  ⟨["https://journals.example/hj1"], ["3rd Reading"], [" 05/01/2017 "]⟩

def docBill : Doc := ⟨[], [rowW], []⟩

/-- A network returning the bill detail page for every URL. -/
def envBill : Net := fun _ _ _ => .ok ⟨true, docBill⟩

/-- The summary scraping the bill detail page above produces. -/
def summaryW : BillVoteSummary :=
  ⟨1, 0, [⟨"05/01/2017", "https://journals.example/hj1", "3rd Reading"⟩], []⟩

def dataW : List (String × BillVoteSummary) := [("HB15", summaryW)]

/-- A network whose every requests.get raises ConnectionError. -/
def getConnFail : Nat → Bool → Except ReqError (Response Nat) :=
  fun _ _ => .error .connectionError

/-- A network whose every requests.get returns an error-status response. -/
def getNotOk : Nat → Bool → Except ReqError (Response Nat) :=
  fun _ _ => .ok ⟨false, 7⟩

/-!  Supporting lemmas (shared by several claim theorems). -/

theorem extractRecords_length (rows : List RawVoteRow) (l : List VoteRecord)
    (h : extractRecords rows = .ok l) : l.length = rows.length := by
  induction rows generalizing l with
  | nil =>
    simp only [extractRecords] at h
    cases h
    rfl
  | cons r rest ih =>
    simp only [extractRecords] at h
    cases hr : extractRecord r with
    | error e => rw [hr] at h; cases h
    | ok v =>
      rw [hr] at h
      cases hrest : extractRecords rest with
      | error e => rw [hrest] at h; cases h
      | ok vs =>
        rw [hrest] at h
        cases h
        simp [ih vs hrest]

theorem get_chamber_bills_of_env (env : Net) (chamber session cid : String)
    (r : Response Doc) (hmap : chamber_map chamber = some cid)
    (henv : env (mkListingUrl session cid) 0 true = .ok r) :
    (get_chamber_bills env chamber session).1 =
      .ok (r.text.hrefs.filter reMatchBillLink) := by
  simp [get_chamber_bills, hmap, lxmlize, henv]

/-- C1: the claim says main parses chamber, session, file and output from
the command line and then runs discovery, scraping and writing with those
values without error. The source never calls parse_args: line 127 reads
parser.chamber directly off the ArgumentParser object, which raises
AttributeError on every invocation, before any discovery. -/
theorem main_always_raises_attribute_error (argv : List String) (env : Net)
    (prior : List (List String)) :
    main argv env prior = .error (.attributeError "chamber") := by
  rfl

/-- C5: write_data opens the destination in append mode and never
overwrites: the prior rows stay untouched in place, the new invocation's
rows (one header plus the data rows) follow them, and the resulting row
count is the prior count plus one header plus the data-row count. -/
theorem write_data_appends (prior : List (List String))
    (data : List (String × BillVoteSummary)) (full : Bool) :
    (write_data prior data full).take prior.length = prior ∧
    (write_data prior data full).drop prior.length = write_data [] data full ∧
    (write_data prior data full).length =
      prior.length + 1 + (dataRows data full).length := by
  refine ⟨?_, ?_, ?_⟩ <;> cases full <;>
    simp [write_data, dataRows, Nat.add_comm, Nat.add_assoc, Nat.add_left_comm]

/-- C6: when the first requests.get raises ConnectionError, lxmlize
sleeps exactly 10 seconds, retries exactly once (two requests in total,
whatever the retry's outcome), and an exception raised by that single
retry propagates to the caller unrecovered. -/
theorem lxmlize_connection_retry {α : Type}
    (get : Nat → Bool → Except ReqError (Response α)) (raise_exceptions : Bool)
    (h : get 0 true = .error .connectionError) :
    (lxmlize get raise_exceptions).sleeps = [10] ∧
    (lxmlize get raise_exceptions).requests = 2 ∧
    (∀ e, get 1 true = .error e →
      (lxmlize get raise_exceptions).result = .error (.requestsError e)) := by
  refine ⟨?_, ?_, ?_⟩
  · simp only [lxmlize, h]
    cases hg : get 1 true with
    | ok r => split <;> first | rfl | (split <;> rfl)
    | error e => rfl
  · simp only [lxmlize, h]
    cases hg : get 1 true with
    | ok r => split <;> first | rfl | (split <;> rfl)
    | error e => rfl
  · intro e he
    simp [lxmlize, h, he]

/-- C7: lxmlize raises on an HTTP error status exactly when the caller
passes raise_exceptions as true; with false (the default, which every
call site of this program uses) a non-success response body is parsed and
returned as valid content, and in particular get_chamber_bills filters
the hrefs of whatever document a non-success listing response parses to. -/
theorem lxmlize_http_error_opt_in {α : Type}
    (get : Nat → Bool → Except ReqError (Response α)) (r : Response α)
    (raise_exceptions : Bool) (h : get 0 true = .ok r) :
    ((lxmlize get raise_exceptions).result = .error .httpError ↔
      raise_exceptions = true ∧ r.ok = false) ∧
    (lxmlize get false).result = .ok r.text ∧
    (∀ (env : Net) (chamber session cid : String) (doc : Doc) (b : Bool),
      chamber_map chamber = some cid →
      env (mkListingUrl session cid) 0 true = .ok ⟨b, doc⟩ →
      (get_chamber_bills env chamber session).1 =
        .ok (doc.hrefs.filter reMatchBillLink)) := by
  refine ⟨?_, ?_, ?_⟩
  · simp only [lxmlize, h]
    cases raise_exceptions <;> cases hok : r.ok <;> simp [hok]
  · simp only [lxmlize, h, Bool.false_and]
    simp
  · intro env chamber session cid doc b hmap henv
    exact get_chamber_bills_of_env env chamber session cid ⟨b, doc⟩ hmap henv

/-- C8: for any chamber other than house and senate, get_chamber_bills
raises KeyError from the chamber_map subscript before any network request
is made (the request trace is empty), and no result list is produced. -/
theorem get_chamber_bills_unknown_chamber (env : Net) (chamber session : String)
    (h1 : chamber ≠ "house") (h2 : chamber ≠ "senate") :
    get_chamber_bills env chamber session = (.error (.keyError chamber), []) := by
  simp [get_chamber_bills, chamber_map, h1, h2]

theorem scrapeStep_ok_counts (env : Net) (url : String)
    (pr : String × BillVoteSummary) (n : Nat)
    (h : scrapeStep env url = (.ok pr, n)) :
    pr.2.lower_votes = pr.2.lower.length ∧ pr.2.upper_votes = pr.2.upper.length := by
  unfold scrapeStep at h
  cases hs : shbSearchStr url with
  | none => rw [hs] at h; cases h
  | some bill =>
    rw [hs] at h
    simp only [] at h
    cases hf : (lxmlize (env url) false).result with
    | error e => rw [hf] at h; simp only [] at h; cases h
    | ok page =>
      rw [hf] at h
      simp only [] at h
      cases hh : extractRecords page.houvote with
      | error e => rw [hh] at h; simp only [] at h; cases h
      | ok h_data =>
        rw [hh] at h
        simp only [] at h
        cases hsv : extractRecords page.senvote with
        | error e => rw [hsv] at h; simp only [] at h; cases h
        | ok s_data =>
          rw [hsv] at h
          simp only [] at h
          injection h with h1 h2
          injection h1 with h1
          subst h1
          exact ⟨(extractRecords_length _ _ hh).symm,
            (extractRecords_length _ _ hsv).symm⟩

/-- C2: every BillVoteSummary yielded by scrape_chamber has lower_votes
equal to the length of its lower record list and upper_votes equal to the
length of its upper record list. -/
theorem scrape_chamber_counts (env : Net) (chamber : String)
    (bill_list : List String) (p : String × BillVoteSummary)
    (hp : p ∈ (scrape_chamber env chamber bill_list).yields) :
    p.2.lower_votes = p.2.lower.length ∧ p.2.upper_votes = p.2.upper.length := by
  induction bill_list with
  | nil => simp [scrape_chamber] at hp
  | cons url rest ih =>
    simp only [scrape_chamber] at hp
    cases hs : scrapeStep env url with
    | mk res n =>
      rw [hs] at hp
      cases res with
      | error e => simp only [] at hp; simp at hp
      | ok pr =>
        simp only [] at hp
        simp only [List.mem_cons] at hp
        cases hp with
        | inl hpe => subst hpe; exact scrapeStep_ok_counts env url p n hs
        | inr hpm => exact ih hpm

theorem fullRows_eq_join (data : List (String × BillVoteSummary)) :
    fullRows data = (data.map fun p =>
      (p.2.lower.map fun r => [p.1, "house", r.date, r.source]) ++
        p.2.upper.map fun r => [p.1, "senate", r.date, r.source]).flatten := by
  induction data with
  | nil => rfl
  | cons p rest ih =>
    obtain ⟨k, v⟩ := p
    simp [fullRows, ih]

theorem fullRows_length (data : List (String × BillVoteSummary))
    (hinv : ∀ p ∈ data, p.2.lower_votes = p.2.lower.length ∧
      p.2.upper_votes = p.2.upper.length) :
    (fullRows data).length =
      (data.map fun p => p.2.lower_votes + p.2.upper_votes).sum := by
  induction data with
  | nil => rfl
  | cons p rest ih =>
    obtain ⟨k, v⟩ := p
    obtain ⟨hl, hu⟩ := hinv (k, v) (List.mem_cons_self _ _)
    simp only [] at hl hu
    simp [fullRows, hl, hu, ih fun q hq => hinv q (List.mem_cons_of_mem _ hq),
      Nat.add_assoc, Nat.add_comm, Nat.add_left_comm]

theorem summaryRows_eq_map (data : List (String × BillVoteSummary)) :
    summaryRows data =
      data.map fun p => [p.1, toString p.2.lower_votes, toString p.2.upper_votes] := by
  induction data with
  | nil => rfl
  | cons p rest ih =>
    obtain ⟨k, v⟩ := p
    simp [summaryRows, ih]

/-- C4: in full mode write_data writes the header bill_id, chamber, date,
journal and then, per bill in input order, one row per vote record, the
house records (labeled house) before the senate records (labeled senate),
each list in its internal order, so a bill contributes lower_votes plus
upper_votes data rows whenever its counts satisfy the C2 invariant; in
summary mode it writes the header bill_id, lower_votes, upper_votes and
exactly one data row per bill. -/
theorem write_data_modes (data : List (String × BillVoteSummary))
    (hinv : ∀ p ∈ data, p.2.lower_votes = p.2.lower.length ∧
      p.2.upper_votes = p.2.upper.length) :
    write_data [] data true = ["bill_id", "chamber", "date", "journal"] ::
      (data.map fun p =>
        (p.2.lower.map fun r => [p.1, "house", r.date, r.source]) ++
          p.2.upper.map fun r => [p.1, "senate", r.date, r.source]).flatten ∧
    (fullRows data).length =
      (data.map fun p => p.2.lower_votes + p.2.upper_votes).sum ∧
    write_data [] data false = ["bill_id", "lower_votes", "upper_votes"] ::
      (data.map fun p => [p.1, toString p.2.lower_votes, toString p.2.upper_votes]) ∧
    (summaryRows data).length = data.length := by
  refine ⟨?_, fullRows_length data hinv, ?_, ?_⟩
  · simp [write_data, fullRows_eq_join]
  · simp [write_data, summaryRows_eq_map]
  · simp [summaryRows_eq_map]

theorem exOk_iff {ε α : Type} (x : Except ε α) : exOk x = true ↔ ∃ a, x = .ok a := by
  cases x <;> simp [exOk]

theorem extractRecord_error (r : RawVoteRow) (e : PyError)
    (h : extractRecord r = .error e) : e = .indexError := by
  unfold extractRecord at h
  split at h
  · cases h; rfl
  · split at h
    · cases h; rfl
    · split at h
      · cases h; rfl
      · cases h

theorem extractRecords_error (rows : List RawVoteRow) (e : PyError)
    (h : extractRecords rows = .error e) : e = .indexError := by
  induction rows with
  | nil => simp [extractRecords] at h
  | cons r rest ih =>
    simp only [extractRecords] at h
    cases hr : extractRecord r with
    | error e1 =>
      rw [hr] at h
      simp only [] at h
      cases h
      exact extractRecord_error r _ hr
    | ok v =>
      rw [hr] at h
      simp only [] at h
      cases hrest : extractRecords rest with
      | error e2 =>
        rw [hrest] at h
        simp only [] at h
        cases h
        exact ih hrest
      | ok vs => rw [hrest] at h; simp only [] at h; cases h

theorem lxmlize_error_form {α : Type}
    (get : Nat → Bool → Except ReqError (Response α)) (re : Bool) (e : PyError)
    (h : (lxmlize get re).result = .error e) :
    e = .httpError ∨ ∃ e2, e = .requestsError e2 := by
  unfold lxmlize at h
  cases hg : get 0 true with
  | ok r =>
    rw [hg] at h
    simp only [] at h
    split at h
    · cases h; exact .inl rfl
    · cases h
  | error e1 =>
    rw [hg] at h
    cases e1 with
    | sslError =>
      simp only [] at h
      cases hg2 : get 1 false with
      | ok r =>
        rw [hg2] at h
        simp only [] at h
        split at h
        · cases h; exact .inl rfl
        · cases h
      | error e2 => rw [hg2] at h; simp only [] at h; cases h; exact .inr ⟨e2, rfl⟩
    | connectionError =>
      simp only [] at h
      cases hg2 : get 1 true with
      | ok r =>
        rw [hg2] at h
        simp only [] at h
        split at h
        · cases h; exact .inl rfl
        · cases h
      | error e2 => rw [hg2] at h; simp only [] at h; cases h; exact .inr ⟨e2, rfl⟩
    | otherError => simp only [] at h; cases h; exact .inr ⟨.otherError, rfl⟩

theorem scrapeStep_error_form (env : Net) (url : String) (e : PyError) (n : Nat)
    (hsome : (shbSearchStr url).isSome = true)
    (h : scrapeStep env url = (.error e, n)) :
    e = .httpError ∨ e = .indexError ∨ ∃ e2, e = .requestsError e2 := by
  unfold scrapeStep at h
  cases hs : shbSearchStr url with
  | none => rw [hs] at hsome; cases hsome
  | some bill =>
    rw [hs] at h
    simp only [] at h
    cases hf : (lxmlize (env url) false).result with
    | error e1 =>
      rw [hf] at h
      simp only [] at h
      injection h with h1 h2
      injection h1 with h1
      subst h1
      rcases lxmlize_error_form (env url) false _ hf with h3 | ⟨e2, h3⟩
      · exact .inl h3
      · exact .inr (.inr ⟨e2, h3⟩)
    | ok page =>
      rw [hf] at h
      simp only [] at h
      cases hh : extractRecords page.houvote with
      | error e1 =>
        rw [hh] at h
        simp only [] at h
        injection h with h1 h2
        injection h1 with h1
        subst h1
        exact .inr (.inl (extractRecords_error _ _ hh))
      | ok h_data =>
        rw [hh] at h
        simp only [] at h
        cases hsv : extractRecords page.senvote with
        | error e1 =>
          rw [hsv] at h
          simp only [] at h
          injection h with h1 h2
          injection h1 with h1
          subst h1
          exact .inr (.inl (extractRecords_error _ _ hsv))
        | ok s_data => rw [hsv] at h; simp only [] at h; injection h with h1 h2; cases h1

theorem scrape_chamber_append_of_ok (env : Net) (chamber : String)
    (pre l : List String) (hpre : ∀ u ∈ pre, exOk (scrapeStep env u).1 = true) :
    scrape_chamber env chamber (pre ++ l) =
      ⟨(scrape_chamber env chamber pre).yields ++ (scrape_chamber env chamber l).yields,
        (scrape_chamber env chamber l).error,
        (scrape_chamber env chamber pre).requests ++
          (scrape_chamber env chamber l).requests⟩ := by
  induction pre with
  | nil => rfl
  | cons u pre ih =>
    have hu := hpre u (List.mem_cons_self _ _)
    obtain ⟨pr, hpr⟩ := (exOk_iff _).1 hu
    cases hs : scrapeStep env u with
    | mk res n =>
      rw [hs] at hpr
      simp only [] at hpr
      subst hpr
      rw [List.cons_append]
      simp only [scrape_chamber, hs]
      rw [ih fun v hv => hpre v (List.mem_cons_of_mem _ hv)]
      simp [List.append_assoc]

/-- C10: when an input URL has no terminal bill-id match, demanding that
element of the generator raises AttributeError before that URL is fetched
(the run's yields, and its network requests, are exactly those of the
preceding well-formed prefix, and the URL is not skipped); and when every
input URL has a terminal match, the bill-id extraction never raises, i.e.
no run terminates with that AttributeError. -/
theorem scrape_chamber_bad_url (env : Net) (chamber : String)
    (pre : List String) (url : String) (rest : List String)
    (hpre : ∀ u ∈ pre, exOk (scrapeStep env u).1 = true)
    (hbad : shbSearchStr url = none) :
    (scrape_chamber env chamber (pre ++ url :: rest)).error =
        some (.attributeError "group") ∧
    (scrape_chamber env chamber (pre ++ url :: rest)).requests =
        (scrape_chamber env chamber pre).requests ∧
    (scrape_chamber env chamber (pre ++ url :: rest)).yields =
        (scrape_chamber env chamber pre).yields ∧
    (∀ l : List String, (∀ u ∈ l, (shbSearchStr u).isSome = true) →
      (scrape_chamber env chamber l).error ≠ some (.attributeError "group")) := by
  have hstep : scrapeStep env url = (.error (.attributeError "group"), 0) := by
    unfold scrapeStep
    rw [hbad]
  have hcons : scrape_chamber env chamber (url :: rest) =
      ⟨[], some (.attributeError "group"), []⟩ := by
    simp only [scrape_chamber, hstep]
    rfl
  rw [scrape_chamber_append_of_ok env chamber pre (url :: rest) hpre, hcons]
  refine ⟨rfl, by simp, by simp, ?_⟩
  intro l hl
  induction l with
  | nil => simp [scrape_chamber]
  | cons u lr ihl =>
    have hu := hl u (List.mem_cons_self _ _)
    simp only [scrape_chamber]
    cases hsu : scrapeStep env u with
    | mk res n =>
      cases res with
      | error e =>
        simp only []
        intro hcontra
        injection hcontra with hcontra
        subst hcontra
        rcases scrapeStep_error_form env u _ n hu hsu with h1 | h1 | ⟨e2, h1⟩ <;>
          cases h1
      | ok pr =>
        simp only []
        exact ihl fun v hv => hl v (List.mem_cons_of_mem _ hv)

theorem listingMatch_of_no_eq (l : List Char) (h : ∀ x ∈ l, x ≠ '=') :
    listingMatch l = false := by
  induction l with
  | nil => rfl
  | cons c cs ih =>
    have hc := h c (List.mem_cons_self _ _)
    simp only [listingMatch]
    rw [if_neg fun hcontra => hc hcontra.1]
    split
    · rfl
    · exact ih fun x hx => h x (List.mem_cons_of_mem _ hx)

theorem shbMatchAt_some (l m : List Char) (h : shbMatchAt l = some m) :
    ∃ c ds t, l = c :: 'B' :: (ds ++ t) ∧ (c = 'S' ∨ c = 'H') ∧ ds ≠ [] ∧
      (∀ x ∈ ds, Char.isDigit x) ∧ (t = [] ∨ t = [Char.ofNat 10]) := by
  unfold shbMatchAt at h
  split at h
  · rename_i c rest
    split at h
    · rename_i hcond
      refine ⟨c, rest.takeWhile Char.isDigit, rest.dropWhile Char.isDigit,
        ?_, hcond.1, hcond.2.1, ?_, ?_⟩
      · rw [List.takeWhile_append_dropWhile]
      · intro x hx
        exact List.mem_takeWhile_imp hx
      · have ht := hcond.2.2
        unfold shbTail at ht
        split at ht
        · assumption
        · cases ht
    · cases h
  · cases h

theorem shbMatchAt_inner_none (p2 : List Char) (c : Char) (ds : List Char)
    (hp : p2 ≠ []) (hc : c = 'S' ∨ c = 'H') (hdig : ∀ x ∈ ds, Char.isDigit x) :
    shbMatchAt (p2 ++ c :: 'B' :: ds) = none := by
  cases hm : shbMatchAt (p2 ++ c :: 'B' :: ds) with
  | none => rfl
  | some m =>
    exfalso
    obtain ⟨c2, ds2, t2, heq, hc2, hds2, hdig2, ht2⟩ := shbMatchAt_some _ _ hm
    cases p2 with
    | nil => exact hp rfl
    | cons a p3 =>
      cases p3 with
      | nil =>
        simp only [List.cons_append, List.nil_append] at heq
        injection heq with h1 heq
        injection heq with h2 heq
        rcases hc with h | h <;> rw [h] at h2 <;> exact absurd h2 (by decide)
      | cons b p4 =>
        simp only [List.cons_append] at heq
        injection heq with h1 heq
        injection heq with h2 heq
        have hcmem : c ∈ ds2 ++ t2 := by
          rw [← heq]
          exact List.mem_append_right _ (List.mem_cons_self _ _)
        rcases List.mem_append.1 hcmem with hin | hin
        · have hd := hdig2 c hin
          rcases hc with h | h <;> rw [h] at hd <;> exact absurd hd (by decide)
        · rcases ht2 with h | h
          · rw [h] at hin; cases hin
          · rw [h] at hin
            simp only [List.mem_singleton] at hin
            rcases hc with h2 | h2 <;> rw [h2] at hin <;> exact absurd hin (by decide)

theorem listingMatch_no_eq_before (p : List Char) (c : Char) (ds : List Char)
    (hc : c = 'S' ∨ c = 'H') (hds : ds ≠ []) (hdig : ∀ x ∈ ds, Char.isDigit x)
    (hlast : p.getLast? ≠ some '=') :
    listingMatch (p ++ c :: 'B' :: ds) = false := by
  induction p with
  | nil =>
    simp only [List.nil_append]
    apply listingMatch_of_no_eq
    intro x hx
    rcases List.mem_cons.1 hx with h | hx2
    · subst h
      rcases hc with h | h <;> rw [h] <;> decide
    · rcases List.mem_cons.1 hx2 with h | hx3
      · subst h
        decide
      · intro hcontra
        subst hcontra
        exact absurd (hdig _ hx3) (by decide)
  | cons a p ih =>
    have hinner : listingMatch (p ++ c :: 'B' :: ds) = false := by
      apply ih
      cases p with
      | nil => simp
      | cons b p2 =>
        rw [List.getLast?_cons_cons] at hlast
        exact hlast
    simp only [List.cons_append, listingMatch]
    split
    · rename_i hcond
      exfalso
      cases p with
      | nil =>
        apply hlast
        rw [hcond.1]
        rfl
      | cons b p2 =>
        have hnone := shbMatchAt_inner_none (b :: p2) c ds (by simp) hc hdig
        rw [List.append_eq] at hcond
        rw [hnone] at hcond
        exact absurd hcond.2 (by decide)
    · split
      · rfl
      · exact hinner

/-- C9: get_chamber_bills retains a hyperlink only when a literal =
character immediately precedes the terminal bill identifier: any href of
the listing page that ends in S or H, then B, then one or more digits,
with no = directly before that suffix, fails the filter and is absent
from the returned list. -/
theorem get_chamber_bills_discards_without_eq (env : Net)
    (chamber session cid : String) (r : Response Doc) (url : String)
    (p ds : List Char) (c : Char)
    (hmap : chamber_map chamber = some cid)
    (henv : env (mkListingUrl session cid) 0 true = .ok r)
    (hdata : url.data = p ++ c :: 'B' :: ds)
    (hc : c = 'S' ∨ c = 'H') (hds : ds ≠ []) (hdig : ∀ x ∈ ds, Char.isDigit x)
    (hlast : p.getLast? ≠ some '=') :
    (get_chamber_bills env chamber session).1 =
      .ok (r.text.hrefs.filter reMatchBillLink) ∧
    url ∉ r.text.hrefs.filter reMatchBillLink := by
  refine ⟨get_chamber_bills_of_env env chamber session cid r hmap henv, ?_⟩
  intro hmem
  have hkeep := (List.mem_filter.1 hmem).2
  unfold reMatchBillLink at hkeep
  rw [hdata, listingMatch_no_eq_before p c ds hc hds hdig hlast] at hkeep
  cases hkeep

/-- C3 (amended): get_chamber_bills returns exactly the hyperlink targets
of the listing page that match the source regex .*=[SH]B d+ dollar, i.e.
whose terminal bill identifier is immediately preceded by a literal =
character, in page order, with no deduplication and no sorting. -/
theorem get_chamber_bills_returns_filtered_links (env : Net)
    (chamber session cid : String) (r : Response Doc)
    (hmap : chamber_map chamber = some cid)
    (henv : env (mkListingUrl session cid) 0 true = .ok r) :
    (get_chamber_bills env chamber session).1 =
      .ok (r.text.hrefs.filter reMatchBillLink) :=
  get_chamber_bills_of_env env chamber session cid r hmap henv

/-- C3 counterexample: the listing page docListing contains the href
https://capitol.texas.gov/BillLookup/HB15, whose trailing segment matches
[SH]B followed by digits anchored at end of string, yet get_chamber_bills
returns only the two links with an = before the bill id — so the claim
that exactly the trailing-segment matches are returned is false on this
page. -/
theorem trailing_match_link_not_returned :
    specTrailingSegmentMatches "https://capitol.texas.gov/BillLookup/HB15" = true ∧
    "https://capitol.texas.gov/BillLookup/HB15" ∈ docListing.hrefs ∧
    (get_chamber_bills envListing "house" "85R").1 =
      .ok ["https://capitol.texas.gov/BillLookup/History.aspx?LegSess=85R&Bill=HB15",
        "https://capitol.texas.gov/BillLookup/History.aspx?LegSess=85R&Bill=SB4"] := by
  refine ⟨by decide, by decide, ?_⟩
  rfl

theorem scrape_chamber_counts_witness :
    ("HB1", summaryW) ∈
      (scrape_chamber envBill "house" ["https://x/a=HB1"]).yields ∧
    (summaryW.lower_votes = summaryW.lower.length ∧
      summaryW.upper_votes = summaryW.upper.length) :=
  ⟨by decide, scrape_chamber_counts envBill "house" ["https://x/a=HB1"]
    ("HB1", summaryW) (by decide)⟩

theorem get_chamber_bills_returns_filtered_links_witness :
    (get_chamber_bills envListing "house" "85R").1 =
      .ok (docListing.hrefs.filter reMatchBillLink) :=
  get_chamber_bills_returns_filtered_links envListing "house" "85R" "housefiled"
    ⟨true, docListing⟩ rfl rfl

theorem write_data_modes_witness :
    write_data [] dataW true = ["bill_id", "chamber", "date", "journal"] ::
      (dataW.map fun p =>
        (p.2.lower.map fun r => [p.1, "house", r.date, r.source]) ++
          p.2.upper.map fun r => [p.1, "senate", r.date, r.source]).flatten ∧
    (fullRows dataW).length =
      (dataW.map fun p => p.2.lower_votes + p.2.upper_votes).sum ∧
    write_data [] dataW false = ["bill_id", "lower_votes", "upper_votes"] ::
      (dataW.map fun p => [p.1, toString p.2.lower_votes, toString p.2.upper_votes]) ∧
    (summaryRows dataW).length = dataW.length :=
  write_data_modes dataW (by decide)

theorem lxmlize_connection_retry_witness :
    (lxmlize getConnFail false).sleeps = [10] ∧
    (lxmlize getConnFail false).requests = 2 ∧
    (lxmlize getConnFail false).result = .error (.requestsError .connectionError) := by
  have h := lxmlize_connection_retry getConnFail false rfl
  exact ⟨h.1, h.2.1, h.2.2 .connectionError rfl⟩

theorem lxmlize_http_error_opt_in_witness :
    ((lxmlize getNotOk true).result = .error .httpError ↔
      true = true ∧ (Response.mk false (7 : Nat)).ok = false) ∧
    (lxmlize getNotOk false).result = .ok 7 ∧
    (get_chamber_bills envNotOk "senate" "85R").1 =
      .ok (docListing.hrefs.filter reMatchBillLink) := by
  have h := lxmlize_http_error_opt_in getNotOk ⟨false, 7⟩ true rfl
  exact ⟨h.1, h.2.1,
    h.2.2 envNotOk "senate" "85R" "senatefiled" docListing false rfl rfl⟩

theorem get_chamber_bills_unknown_chamber_witness :
    get_chamber_bills envBill "assembly" "85R" =
      (.error (.keyError "assembly"), []) :=
  get_chamber_bills_unknown_chamber envBill "assembly" "85R"
    (by decide) (by decide)

theorem get_chamber_bills_discards_without_eq_witness :
    (get_chamber_bills envListing "house" "85R").1 =
      .ok (docListing.hrefs.filter reMatchBillLink) ∧
    "https://capitol.texas.gov/BillLookup/HB15" ∉
      docListing.hrefs.filter reMatchBillLink :=
  get_chamber_bills_discards_without_eq envListing "house" "85R" "housefiled"
    ⟨true, docListing⟩ "https://capitol.texas.gov/BillLookup/HB15"
    ("https://capitol.texas.gov/BillLookup/").data ['1', '5'] 'H'
    rfl rfl (by decide) (by decide) (by decide) (by decide) (by decide)

theorem scrape_chamber_bad_url_witness :
    (scrape_chamber envBill "house"
        (["https://x/a=HB1"] ++ ["https://x/HCR4"])).error =
      some (.attributeError "group") ∧
    (scrape_chamber envBill "house"
        (["https://x/a=HB1"] ++ ["https://x/HCR4"])).requests =
      (scrape_chamber envBill "house" ["https://x/a=HB1"]).requests ∧
    (scrape_chamber envBill "house"
        (["https://x/a=HB1"] ++ ["https://x/HCR4"])).yields =
      (scrape_chamber envBill "house" ["https://x/a=HB1"]).yields ∧
    (scrape_chamber envBill "house" ["https://x/a=HB1"]).error ≠
      some (.attributeError "group") := by
  have h := scrape_chamber_bad_url envBill "house" ["https://x/a=HB1"]
    "https://x/HCR4" [] (by decide) (by decide)
  exact ⟨h.1, h.2.1, h.2.2.1, h.2.2.2 ["https://x/a=HB1"] (by decide)⟩

end TloVoteTally
